import Mathlib

/-!
Verification of the fang styled help/usage layout engine (src/help.go,
src/theme.go) against its natural-language specification.

Shallow embedding notes:
* A rendered piece of styled text is modelled as a list of segments.  Each
  segment records the semantic style role (from `makeStyles` in theme.go),
  the style's left padding in cells, and the raw text.  Background and
  foreground colors are not modelled: no claim depends on them, only on
  which role a token receives and on displayed widths.
* `lipgloss.Width` counts display cells of the rendered text; ANSI escape
  codes are zero-width, padding spaces count.  All strings involved in the
  claims are ASCII, so one cell = one character and the width of a segment is
  its padding plus its text length.
* `lipgloss.JoinHorizontal(lipgloss.Left, ...)` on single-line strings is
  concatenation, i.e. list append of segments.
-/

/-- Semantic style roles, one per style built in `makeStyles` (theme.go).
`plain` stands for unstyled raw text (bare Go strings that reach the
output without passing through a style's Render). -/
inductive Role where
  | program
  | argument
  | flag
  | comment
  | quoted
  | dash
  | help
  | defaultVal
  | span
  | plain
  | errorHeader
  | errorDetails
  | errorDetailsFlag
deriving DecidableEq, Repr

/-- One styled text segment: role, left padding (cells), raw text. -/
structure Seg where
  role : Role
  pad : Nat
  text : String
deriving DecidableEq, Repr

/-- Display width of a segment: padding cells plus text cells (ASCII). -/
def Seg.width (s : Seg) : Nat := s.pad + s.text.length

/-- A rendered styled string: a sequence of segments (joined left-to-right). -/
abbrev Rendered := List Seg

/-- Display width of a rendered string, as `lipgloss.Width` measures it. -/
def rwidth (r : Rendered) : Nat := (r.map Seg.width).sum

/-- Models Go `strings.Repeat s n` for a nonnegative count. -/
def goRepeatStr (s : String) : Nat → String
  | 0 => ""
  | n + 1 => s ++ goRepeatStr s n

/-- A run of `n` spaces. -/
def spaces (n : Nat) : String := goRepeatStr " " n

/-- Models Go `strings.Repeat " " n` on an int count: Go panics when the
count is negative, modelled as `none`. -/
def goRepeat (s : String) (n : Int) : Option String :=
  if n < 0 then none else some (goRepeatStr s n.toNat)

/-- Models Go `strings.TrimSpace`: strip whitespace from both ends.
(The core `String.trim` is byte-position based and does not reduce in the
kernel, so the same function is implemented over the character list.) -/
def goTrimSpace (s : String) : String :=
  String.mk
    (((s.data.dropWhile Char.isWhitespace).reverse.dropWhile
      Char.isWhitespace).reverse)

/-- Models Go `strings.HasPrefix` / `String.startsWith`. -/
def goHasPre (s pre : String) : Bool := pre.data.isPrefixOf s.data

/-- Models Go `strings.HasSuffix` / `String.endsWith`. -/
def goHasSuf (s suf : String) : Bool := suf.data.isSuffixOf s.data

/-- Split a character list at every character satisfying `p`, keeping
empty parts.  Always returns at least one part. -/
def splitBy (p : Char → Bool) : List Char → List (List Char)
  | [] => [[]]
  | c :: rest =>
    let r := splitBy p rest
    if p c then [] :: r
    else
      match r with
      | [] => [[c]]
      | h :: t => (c :: h) :: t

/-- Models Go `strings.Split` with a one-character separator, on the
character list of the string. -/
def goSplitChar (sep : Char) (cs : List Char) : List (List Char) :=
  splitBy (fun c => c == sep) cs

/-- Models Go `strings.Fields`: split on whitespace runs, no empty parts. -/
def goFields (s : String) : List String :=
  ((splitBy Char.isWhitespace s.data).filter (fun t => t != [])).map
    (fun l => String.mk l)

/-- Fuel-driven splitter on a non-empty multi-character pattern: split at
every non-overlapping left-to-right occurrence, keeping empty parts.  The
fuel is the input length, consumed one character per step, so it never
runs out. -/
def splitOnFuel (pat : List Char) : Nat → List Char → List (List Char)
  | _, [] => [[]]
  | 0, cs => [cs]
  | n + 1, c :: rest =>
    if pat.isPrefixOf (c :: rest) then
      [] :: splitOnFuel pat n (rest.drop (pat.length - 1))
    else
      match splitOnFuel pat n rest with
      | [] => [[c]]
      | h :: t => (c :: h) :: t

/-- Models Go `strings.Split` (non-empty separator). -/
def goSplitOn (s pat : String) : List String :=
  (splitOnFuel pat.data s.data.length s.data).map (fun l => String.mk l)

/-- Substring containment test (Go `strings.Contains`), for a non-empty
pattern: splitting yields more than one part iff the pattern occurs. -/
def containsStr (s pat : String) : Bool := (goSplitOn s pat).length != 1

/-- Models Go `strings.Cut s sep`: split around the first occurrence of
`sep`, returning (before, after, found). -/
def goCut (s sep : String) : String × String × Bool :=
  match goSplitOn s sep with
  | [] => (s, "", false)
  | [_] => (s, "", false)
  | x :: xs => (x, String.intercalate sep xs, true)

/-- Models Go `strings.TrimPrefix`. -/
def goTrimPre (s pre : String) : String :=
  if goHasPre s pre then String.mk (s.data.drop pre.length) else s

/-- Fuel-driven replacement of every non-overlapping left-to-right
occurrence of a non-empty pattern. -/
def replaceFuel (pat rep : List Char) : Nat → List Char → List Char
  | _, [] => []
  | 0, cs => cs
  | n + 1, c :: rest =>
    if pat.isPrefixOf (c :: rest) then
      rep ++ replaceFuel pat rep n (rest.drop (pat.length - 1))
    else
      c :: replaceFuel pat rep n rest

/-- Models Go `strings.ReplaceAll` (help.go only replaces non-empty
placeholder patterns). -/
def goReplace (s pat rep : String) : String :=
  if pat == "" then s
  else String.mk (replaceFuel pat.data rep.data s.data.length s.data)

/-- One flag declaration, as pflag exposes it to help.go: long name,
shorthand ("" when absent), usage text, printed default value, the value
type name (`flag.Value.Type()`, "bool" for boolean flags), hidden marker. -/
structure FlagSpec where
  Name : String
  Shorthand : String
  Usage : String
  DefValue : String
  typeName : String
  Hidden : Bool
deriving DecidableEq, Repr

/-- One cobra command node, restricted to the fields help.go reads:
Use, Short, Long, Example, the flag set `c.Flags()` (pflag visits it in
lexicographic order by default; the claims are order-independent, so the
declaration order is used), the children `c.Commands()`, Hidden. -/
inductive Cmd where
  | mk (Use Short Long Example : String) (Flags : List FlagSpec)
      (Commands : List Cmd) (Hidden : Bool)

/-- Field `c.Use`. -/
def Cmd.Use : Cmd → String
  | .mk u _ _ _ _ _ _ => u

/-- Field `c.Short`. -/
def Cmd.Short : Cmd → String
  | .mk _ s _ _ _ _ _ => s

/-- Field `c.Long`. -/
def Cmd.Long : Cmd → String
  | .mk _ _ l _ _ _ _ => l

/-- Field `c.Example`. -/
def Cmd.Example : Cmd → String
  | .mk _ _ _ e _ _ _ => e

/-- The flag set `c.Flags()`. -/
def Cmd.Flags : Cmd → List FlagSpec
  | .mk _ _ _ _ f _ _ => f

/-- The child commands `c.Commands()`. -/
def Cmd.Commands : Cmd → List Cmd
  | .mk _ _ _ _ _ ch _ => ch

/-- Field `c.Hidden`. -/
def Cmd.Hidden : Cmd → Bool
  | .mk _ _ _ _ _ _ h => h

/-- Models `cases.Title(language.AmericanEnglish).String` on a single
whitespace-free ASCII word: first character upper-cased, the rest
lower-cased (`Char.toUpper` and `Char.toLower` are ASCII, matching the
x/text behavior on the ASCII words the claims involve). -/
def titleWord (w : String) : String :=
  match w.toList with
  | [] => ""
  | c :: rest => String.mk (c.toUpper :: rest.map Char.toLower)

/-- `titleFirstWord` (help.go): split into fields, title-case the first
word, re-join with single spaces; empty-field input returned unchanged. -/
def titleFirstWord (s : String) : String :=
  match goFields s with
  | [] => s
  | w :: rest => String.intercalate " " (titleWord w :: rest)

/-- `minSpace` constant (help.go). -/
def minSpace : Nat := 10

/-- `shortPad` constant (help.go, top level). -/
def shortPad : Nat := 2

/-- `spaceBetween` constant (local to `calculateSpace`). -/
def spaceBetween : Nat := 2

/-- `isFlagBool` (help.go): look the name up among the declared flags,
fall back to shorthand lookup for single-character names, treat unknown
names as non-boolean. -/
def isFlagBool (c : Cmd) (name : String) : Bool :=
  let flag0 := c.Flags.find? (fun f => f.Name == name)
  let flag1 :=
    match flag0 with
    | some f => some f
    | none =>
      if name.length == 1 then c.Flags.find? (fun f => f.Shorthand == name)
      else none
  match flag1 with
  | none => false
  | some f => f.typeName == "bool"

/-- The mutable state of the token loop in `evalExample`. -/
structure ExState where
  nextIsFlag : Bool
  isQuotedString : Bool
deriving DecidableEq, Repr

/-- Initial token-loop state: both booleans false. -/
def ExState.init : ExState := ⟨false, false⟩

/-- One iteration of the token loop of `evalExample` (help.go) for a
non-first token: returns the rendered segments for this token and the
state passed to the next token.  Mirrors the Go control flow: pending
flag value, quote opening, open quoted span, closing-quote token (left
unstyled, `continue` without assignment), dashes, `=`-cut, boolean flag
lookup, plain argument. -/
def evalToken (c : Cmd) (st : ExState) (arg : String) : Rendered × ExState :=
  if st.nextIsFlag then
    ([⟨.flag, 1, arg⟩], { st with nextIsFlag := false })
  else if st.isQuotedString || goHasPre arg "\"" then
    ([⟨.quoted, 1, arg⟩], { st with isQuotedString := true })
  else if goHasSuf arg "\"" then
    ([⟨.plain, 0, arg⟩], { st with isQuotedString := false })
  else
    let dashes := if goHasPre arg "--" then "--"
      else if goHasPre arg "-" then "-" else ""
    if dashes != "" then
      let cut := goCut arg "="
      let name := goTrimPre cut.1 dashes
      if cut.2.2 then
        ([⟨.dash, 1, dashes⟩, ⟨.flag, 0, name⟩, ⟨.comment, 0, "="⟩,
          ⟨.flag, 0, cut.2.1⟩], st)
      else
        ([⟨.dash, 1, dashes⟩, ⟨.flag, 0, name⟩],
          { st with nextIsFlag := !isFlagBool c name })
    else
      ([⟨.argument, 1, arg⟩], st)

/-- `evalExample` (help.go): trim the line; a blank line that is the last
split line returns empty (the call site passes `i != len(examples)-1` for
the parameter named `last`, so `last = false` means the line IS the final
one); a `"# "` line renders wholly as a comment; otherwise split into
fields, render the first as the program name and the rest through the
token state machine. -/
def evalExample (c : Cmd) (line : String) (last : Bool) : Rendered :=
  let l := goTrimSpace line
  if l == "" && !last then []
  else if goHasPre l "# " then [⟨.comment, 1, l⟩]
  else
    match goFields l with
    | [] => []
    | a0 :: rest =>
      ⟨.program, 1, a0⟩ ::
        (rest.foldl
          (fun acc arg =>
            let step := evalToken c acc.2 arg
            (acc.1 ++ step.1, step.2))
          (([] : Rendered), ExState.init)).1

/-- The placeholder vocabulary stripped by `use` (help.go), in source
order. -/
def placeholders : List String := ["[args]", "[flags]", "[--flags]", "[command]"]

/-- `hasArgs` boolean of `use` (help.go). -/
def hasArgsB (c : Cmd) : Bool := containsStr c.Use "[args]"

/-- `hasFlags` boolean of `use` (help.go).  `c.HasFlags()` is modelled as
non-emptiness of the single modelled flag set (which also covers the
persistent flags cobra stores in the same set), and
`c.HasAvailableFlags()` as existence of a non-hidden flag. -/
def hasFlagsB (c : Cmd) : Bool :=
  containsStr c.Use "[flags]" || containsStr c.Use "[--flags]" ||
    !c.Flags.isEmpty || c.Flags.any (fun f => !f.Hidden)

/-- `hasCommands` boolean of `use` (help.go): placeholder present or at
least one non-hidden child (`c.HasAvailableSubCommands()`). -/
def hasCommandsB (c : Cmd) : Bool :=
  containsStr c.Use "[command]" || c.Commands.any (fun sc => !sc.Hidden)

/-- The last index at which `ch` occurs in `cs`. -/
def lastIdxOf (cs : List Char) (ch : Char) : Option Nat :=
  match cs.reverse.findIdx? (fun c => c == ch) with
  | none => none
  | some j => some (cs.length - 1 - j)

/-- Models `otherArgsRe.FindAllString(u, -1)` for the Go regexp
`(\[.*\])` on newline-free input (cobra Use lines are single-line; Go's
`.` does not match a newline).  Go regexps are leftmost-first with greedy
`.*`, so the single possible match runs from the first `[` to the last
`]`; after it no `]` remains, hence at most one match. -/
def otherArgsFind (s : String) : List String :=
  let cs := s.toList
  match cs.findIdx? (fun c => c == '['), lastIdxOf cs ']' with
  | some i, some j =>
    if i < j then [String.mk ((cs.drop i).take (j - i + 1))] else []
  | _, _ => []

/-- The cleaned name text of `use` (help.go): placeholders replaced away,
regex-found bracketed tokens replaced away, whitespace trimmed. -/
def cleanUse (c : Cmd) : String :=
  let u := placeholders.foldl (fun acc k => goReplace acc k "") c.Use
  let otherArgs := otherArgsFind u
  goTrimSpace (otherArgs.foldl (fun acc arg => goReplace acc arg "") u)

/-- The preserved other-argument tokens of `use` (help.go). -/
def otherArgsOf (c : Cmd) : List String :=
  otherArgsFind (placeholders.foldl (fun acc k => goReplace acc k "") c.Use)

/-- `use` (help.go): the styled use line.  `styles.Program` gets
`PaddingLeft(4)` at this call site; argument and flag placeholders keep
their styles' padding 1. -/
def use (c : Cmd) : Rendered :=
  [(⟨.program, 4, cleanUse c⟩ : Seg)]
    ++ (if hasCommandsB c then [(⟨.argument, 1, "[command]"⟩ : Seg)] else [])
    ++ (if hasArgsB c then [(⟨.argument, 1, "[args]"⟩ : Seg)] else [])
    ++ (otherArgsOf c).map (fun arg => (⟨.argument, 1, arg⟩ : Seg))
    ++ (if hasFlagsB c then [(⟨.flag, 1, "[--flags]"⟩ : Seg)] else [])

/-- A Go map from rendered keys to rendered values, modelled as an
association list with overwrite-on-insert (Go map assignment). -/
abbrev AssocMap := List (Rendered × Rendered)

/-- Go map assignment `m[k] = v`: overwrite an existing entry, otherwise
append a new one. -/
def mapSet (m : AssocMap) (k v : Rendered) : AssocMap :=
  if m.any (fun p => p.1 == k) then
    m.map (fun p => if p.1 == k then (k, v) else p)
  else m ++ [(k, v)]

/-- Go map read `m[k]`: the stored value, or the zero value (empty
rendered string) when absent. -/
def mapGet (m : AssocMap) (k : Rendered) : Rendered :=
  match m.find? (fun p => p.1 == k) with
  | some p => p.2
  | none => []

/-- The left-column key of one flag row (`evalFlags`, help.go): the local
constants are `shortPad = 4` and `noShortPad = shortPad + 3 = 7`; without
a shorthand the key is dash("--", pad 7) + flag(name); with one it is
dash("-", pad 4) + flag(shorthand) + dash("--", pad 1) + flag(name). -/
def flagKey (f : FlagSpec) : Rendered :=
  if f.Shorthand == "" then
    [⟨.dash, 7, "--"⟩, ⟨.flag, 0, f.Name⟩]
  else
    [⟨.dash, 4, "-"⟩, ⟨.flag, 0, f.Shorthand⟩, ⟨.dash, 1, "--"⟩,
      ⟨.flag, 0, f.Name⟩]

/-- The right-column value of one flag row (`evalFlags`, help.go):
title-cased usage text, plus a default suffix `" (<default>)"` (the
Default style with `PaddingLeft(1)`) unless the printed default is one of
"", "false", "0", "[]". -/
def flagValue (f : FlagSpec) : Rendered :=
  let help : Rendered := [⟨.help, 0, titleFirstWord f.Usage⟩]
  if f.DefValue != "" && f.DefValue != "false" && f.DefValue != "0" &&
      f.DefValue != "[]" then
    help ++ [⟨.defaultVal, 1, "(" ++ f.DefValue ++ ")"⟩]
  else help

/-- `evalFlags` (help.go): visit the flag set, skip hidden flags, build
the key/value map and the ordered key list. -/
def evalFlags (c : Cmd) : AssocMap × List Rendered :=
  c.Flags.foldl
    (fun acc f =>
      if f.Hidden then acc
      else (mapSet acc.1 (flagKey f) (flagValue f), acc.2 ++ [flagKey f]))
    ([], [])

/-- `evalCmds` (help.go): for each non-hidden child, key = its own use
line (`padStyle` has `PaddingLeft(0)`, adding nothing), value =
title-cased short description in the Help style. -/
def evalCmds (c : Cmd) : AssocMap × List Rendered :=
  c.Commands.foldl
    (fun acc sc =>
      if sc.Hidden then acc
      else
        (mapSet acc.1 (use sc) [⟨.help, 0, titleFirstWord sc.Short⟩],
          acc.2 ++ [use sc]))
    ([], [])

/-- `calculateSpace` (help.go): fold max over both key lists starting
from `minSpace`, adding the fixed `spaceBetween` gap to each key width. -/
def calculateSpace (k1 k2 : List Rendered) : Nat :=
  (k1 ++ k2).foldl (fun space k => max space (rwidth k + spaceBetween)) minSpace

/-- `usage` (help.go): split the example text on newlines, evaluate each
line (passing `i != len(examples)-1` as the `last` parameter, see
`evalExample`), then right-pad every line to the maximum width with a
Span-styled run of spaces. -/
def usage (c : Cmd) (minSize : Nat) : List Rendered :=
  let examples := (goSplitChar '\n' c.Example.toList).map (fun l => String.mk l)
  let step1 := examples.enum.map
    (fun p => evalExample c p.2 (p.1 != examples.length - 1))
  let size := step1.foldl (fun sz s => max sz (rwidth s)) minSize
  step1.map (fun u =>
    if size > rwidth u then u ++ [⟨.span, 0, spaces (size - rwidth u)⟩] else u)

/-- One unit of output, corresponding to one `fmt.Fprintln` in help.go.
Section titles are tracked by their semantic text (the Title style
up-cases and pads them; no claim measures that).  A codeblock holds the
joined example lines. -/
inductive Block where
  | line (r : Rendered)
  | title (s : String)
  | codeblock (lines : List Rendered)
  | blank
deriving DecidableEq, Repr

/-- One command-list or flag-list row of `helpFn` (help.go):
`lipgloss.JoinHorizontal(Left, k, strings.Repeat(" ", space-width(k)),
m[k])`.  `strings.Repeat` panics on a negative count, hence the Option. -/
def helpRow (m : AssocMap) (space : Nat) (k : Rendered) : Option Block :=
  (goRepeat " " ((space : Int) - (rwidth k : Int))).map
    (fun sep => Block.line (k ++ ⟨.plain, 0, sep⟩ :: mapGet m k))

/-- Go slice expression `xs[i:]`: panics (none) when `i > len(xs)`. -/
def goSliceFrom (xs : List α) (i : Nat) : Option (List α) :=
  if i ≤ xs.length then some (xs.drop i) else none

/-- The examples section of `helpFn` (help.go): guarded by
`len(lines) > 0`, emits the "examples" title and the codeblock joining
`lines[1:]`. -/
def exampleBlocks (lines : List Rendered) : Option (List Block) :=
  if lines.length > 0 then
    (goSliceFrom lines 1).map
      (fun rest => [Block.title "examples", Block.codeblock rest])
  else some []

/-- One key/value section ("commands" or "flags") of `helpFn` (help.go):
emitted only when the map is non-empty; one row per key in order. -/
def sectionBlocks (title : String) (m : AssocMap) (keys : List Rendered)
    (space : Nat) : Option (List Block) :=
  if m.length > 0 then
    (keys.mapM (helpRow m space)).map
      (fun rows => Block.title title :: rows)
  else some []

/-- `writeLongShort` (help.go): nothing when `cmp.Or(c.Long, c.Short)` is
empty, otherwise a blank, the description (Help style, `PaddingLeft(2)`),
the "usage" title and a blank. -/
def writeLongShort (c : Cmd) : List Block :=
  let longShort := if c.Long != "" then c.Long else c.Short
  if longShort == "" then []
  else
    [Block.blank, Block.line [⟨.help, shortPad, longShort⟩],
      Block.title "usage", Block.blank]

/-- `helpFn` (help.go): header, the use line, the examples section, the
commands section, the flags section, a final blank line.  The Option
captures the two spots where the Go code could panic (`lines[1:]` and the
negative-count `strings.Repeat`). -/
def helpFn (c : Cmd) : Option (List Block) :=
  let firstUse := use c
  let lines := usage c (rwidth firstUse)
  let cm := evalCmds c
  let fl := evalFlags c
  let space := calculateSpace cm.2 fl.2
  (exampleBlocks lines).bind fun ex =>
    (sectionBlocks "commands" cm.1 cm.2 space).bind fun cmdB =>
      (sectionBlocks "flags" fl.1 fl.2 space).map fun flagB =>
        writeLongShort c ++ [Block.line firstUse] ++ ex ++ cmdB ++ flagB ++
          [Block.blank]

/-- `writeError` (help.go): the ERROR badge (ErrorHeader style,
`SetString("ERROR")`, horizontal padding 1), the message line
(`titleFirstWord(err.Error() + ".")` in the ErrorDetails style), a blank,
the fixed hint line, a blank. -/
def writeError (msg : String) : List Block :=
  [Block.line [⟨.errorHeader, 1, "ERROR"⟩],
    Block.line [⟨.errorDetails, 0, titleFirstWord (msg ++ ".")⟩],
    Block.blank,
    Block.line [⟨.errorDetails, 0, "Try"⟩, ⟨.errorDetailsFlag, 1, "--help"⟩,
      ⟨.errorDetails, 1, "for usage."⟩],
    Block.blank]

/-- The raw text of a segment as displayed: padding spaces then text. -/
def segText (s : Seg) : String := spaces s.pad ++ s.text

/-- The displayed text of a rendered string. -/
def renderedText (r : Rendered) : String := String.join (r.map segText)

/-- The displayed text of one output block. -/
def blockText : Block → String
  | .line r => renderedText r
  | .title s => s
  | .codeblock ls => String.join (ls.map renderedText)
  | .blank => ""

/-- All displayed text of a help render, concatenated. -/
def outText (bs : List Block) : String := String.join (bs.map blockText)

/-- The node of the C2 failing input: declares a String flag named
"flag" (its type is irrelevant, the token never reaches the dash branch). -/
def cQuoted : Cmd := .mk "example" "" "" ""
  [⟨"flag", "", "", "", "string", false⟩] [] false

/-- The node of the C3 example: `name` a non-boolean (string) flag,
`a` the shorthand of a boolean flag, `s` the shorthand of a string flag. -/
def cFlags3 : Cmd := .mk "example" "" "" ""
  [⟨"name", "", "", "", "string", false⟩,
   ⟨"all", "a", "", "", "bool", false⟩,
   ⟨"string", "s", "", "", "string", false⟩] [] false

/-- The node of the C4 example: `Use = "example [args]"`, available
flags, no subcommands. -/
def cUseArgs : Cmd := .mk "example [args]" "" "" ""
  [⟨"name", "", "", "", "string", false⟩] [] false

/-- A node with no flags, no children and a plain Use text. -/
def cNoFlags : Cmd := .mk "plain" "" "" "" [] [] false

/-- The C5 input: example text with an internal and a trailing blank line. -/
def cTrailing : Cmd := .mk "simple" "" "" "\nsimple run\n" [] [] false

/-- The C8 failing input: a degenerate node with empty example text,
empty flag set and empty children set. -/
def cEmptyNode : Cmd := .mk "simple" "" "" "" [] [] false

/-- The C10 input: example text whose first line (content "run") does not
begin with a newline. -/
def cFirstLine : Cmd := .mk "simple" "" "" "simple run\nsimple other" [] [] false

/-- A node with one subcommand and one flag, for the alignment witness. -/
def cAligned : Cmd := .mk "simple" "Short" "" ""
  [⟨"string1", "", "a string flag", "default-value", "string", false⟩]
  [.mk "sub1" "a sub command" "" "" [] [] false] false

/-- A boolean flag whose printed default is "false". -/
def fBoolDef : FlagSpec := ⟨"bool1", "b", "a bool flag", "false", "bool", false⟩

/-- A string flag with a non-trivial printed default. -/
def fStrDef : FlagSpec :=
  ⟨"string1", "", "a string flag", "default-value", "string", false⟩

/-- Width distributes over horizontal joins. -/
theorem rwidth_append (a b : Rendered) : rwidth (a ++ b) = rwidth a + rwidth b := by
  simp [rwidth]

/-- A max-fold never drops below its start value. -/
theorem le_foldl_max_init (f : Rendered → Nat) (l : List Rendered) (init : Nat) :
    init ≤ l.foldl (fun a k => max a (f k)) init := by
  induction l generalizing init with
  | nil => exact le_refl _
  | cons x xs ih => exact le_trans (le_max_left _ _) (ih _)

/-- A max-fold dominates the measure of every member. -/
theorem mem_le_foldl_max (f : Rendered → Nat) :
    ∀ (l : List Rendered) (init : Nat) (k : Rendered), k ∈ l →
      f k ≤ l.foldl (fun a x => max a (f x)) init := by
  intro l
  induction l with
  | nil => intro init k hk; cases hk
  | cons x xs ih =>
    intro init k hk
    rcases List.mem_cons.mp hk with h | h
    · subst h
      exact le_trans (le_max_right _ _) (le_foldl_max_init f xs _)
    · exact ih _ _ h

/-- `calculateSpace` is at least the fixed minimum. -/
theorem minSpace_le_calculateSpace (k1 k2 : List Rendered) :
    minSpace ≤ calculateSpace k1 k2 :=
  le_foldl_max_init _ _ _

/-- `calculateSpace` leaves at least the fixed gap after every key. -/
theorem calculateSpace_of_mem (k1 k2 : List Rendered) (k : Rendered)
    (h : k ∈ k1 ++ k2) :
    rwidth k + spaceBetween ≤ calculateSpace k1 k2 :=
  mem_le_foldl_max (fun x => rwidth x + spaceBetween) (k1 ++ k2) minSpace k h

/-- Length of a repeated string. -/
theorem goRepeatStr_length (s : String) (n : Nat) :
    (goRepeatStr s n).length = n * s.length := by
  induction n with
  | zero => simp [goRepeatStr]
  | succ m ih =>
    simp only [goRepeatStr, String.length_append, ih]
    ring

/-- A run of `n` spaces has length `n`. -/
theorem spaces_length (n : Nat) : (spaces n).length = n := by
  rw [spaces, goRepeatStr_length, show (" ").length = 1 from rfl, mul_one]

/-- A row whose key fits inside the column renders successfully, with the
separator being exactly the missing spaces. -/
theorem helpRow_eq (m : AssocMap) (space : Nat) (k : Rendered)
    (h : rwidth k ≤ space) :
    helpRow m space k =
      some (Block.line (k ++ ⟨.plain, 0, spaces (space - rwidth k)⟩ ::
        mapGet m k)) := by
  have h1 : ¬ ((space : Int) - (rwidth k : Int) < 0) := by omega
  have h2 : ((space : Int) - (rwidth k : Int)).toNat = space - rwidth k := by
    omega
  simp [helpRow, goRepeat, h1, h2, spaces]

/-- Splitting always produces at least one part. -/
theorem splitBy_ne_nil (p : Char → Bool) (cs : List Char) :
    splitBy p cs ≠ [] := by
  cases cs with
  | nil => simp [splitBy]
  | cons c rest =>
    simp only [splitBy]
    split
    · simp
    · split <;> simp

/-- Go `strings.Split` always produces at least one part. -/
theorem goSplitChar_ne_nil (sep : Char) (cs : List Char) :
    goSplitChar sep cs ≠ [] := splitBy_ne_nil _ _

/-- `usage` emits one rendered line per split input line: no line is
dropped, trailing blank included. -/
theorem usage_length (c : Cmd) (m : Nat) :
    (usage c m).length = (goSplitChar '\n' c.Example.toList).length := by
  simp [usage]

/-- The examples section always fires: its guard `len(lines) > 0` is
always true because splitting yields at least one line, and the codeblock
joins `lines[1:]`, dropping the first per-line result. -/
theorem exampleBlocks_eq (c : Cmd) (m : Nat) :
    exampleBlocks (usage c m) =
      some [Block.title "examples", Block.codeblock ((usage c m).drop 1)] := by
  have h : 0 < (usage c m).length := by
    rw [usage_length]
    exact List.length_pos.mpr (goSplitChar_ne_nil _ _)
  have h1 : 1 ≤ (usage c m).length := h
  simp [exampleBlocks, goSliceFrom, h, h1]

/-- Rendering all rows of a section succeeds when every key fits. -/
theorem mapM_helpRow_isSome (m : AssocMap) (space : Nat)
    (keys : List Rendered) (h : ∀ k ∈ keys, rwidth k ≤ space) :
    (keys.mapM (helpRow m space)).isSome = true := by
  induction keys with
  | nil => rfl
  | cons k ks ih =>
    have h1 := helpRow_eq m space k (h k (List.mem_cons_self _ _))
    have h2 := ih (fun x hx => h x (List.mem_cons_of_mem _ hx))
    obtain ⟨v, hv⟩ := Option.isSome_iff_exists.mp h2
    rw [List.mapM_cons, h1, hv]
    rfl

/-- A section renders successfully when every key fits. -/
theorem sectionBlocks_isSome (title : String) (m : AssocMap)
    (keys : List Rendered) (space : Nat)
    (h : ∀ k ∈ keys, rwidth k ≤ space) :
    (sectionBlocks title m keys space).isSome = true := by
  unfold sectionBlocks
  split
  · obtain ⟨v, hv⟩ :=
      Option.isSome_iff_exists.mp (mapM_helpRow_isSome m space keys h)
    rw [hv]
    rfl
  · rfl

/-- The ordered key list produced by `evalFlags` is exactly one key per
non-hidden flag, in visit order. -/
theorem evalFlags_keys_aux (l : List FlagSpec) (acc : AssocMap × List Rendered) :
    (l.foldl
      (fun acc f =>
        if f.Hidden then acc
        else (mapSet acc.1 (flagKey f) (flagValue f), acc.2 ++ [flagKey f]))
      acc).2 =
    acc.2 ++ (l.filter (fun f => !f.Hidden)).map flagKey := by
  induction l generalizing acc with
  | nil => simp
  | cons f fs ih =>
    cases h : f.Hidden with
    | true => simp [h, ih]
    | false => simp [h, ih]

/-- C1: for every render of a command node, the single alignment width
`space = calculateSpace(cmdKeys, flagKeys)` satisfies `space >= minSpace`
and `space >= width(key) + gap` for every visible command-list and
flag-list key, and every row renders as key + (space - width(key)) spaces
+ value, so the value column starts at character column `space` in every
row of both sections. -/
theorem alignment_invariant (c : Cmd) :
    minSpace ≤ calculateSpace (evalCmds c).2 (evalFlags c).2 ∧
    (∀ k ∈ (evalCmds c).2 ++ (evalFlags c).2,
      rwidth k + spaceBetween ≤ calculateSpace (evalCmds c).2 (evalFlags c).2) ∧
    (∀ (m : AssocMap) (k : Rendered), k ∈ (evalCmds c).2 ++ (evalFlags c).2 →
      helpRow m (calculateSpace (evalCmds c).2 (evalFlags c).2) k =
        some (Block.line (k ++
          (⟨.plain, 0, spaces
            (calculateSpace (evalCmds c).2 (evalFlags c).2 - rwidth k)⟩ : Seg) ::
          mapGet m k)) ∧
      rwidth (k ++ [(⟨.plain, 0, spaces
          (calculateSpace (evalCmds c).2 (evalFlags c).2 - rwidth k)⟩ : Seg)]) =
        calculateSpace (evalCmds c).2 (evalFlags c).2) := by
  refine ⟨minSpace_le_calculateSpace _ _,
    fun k hk => calculateSpace_of_mem _ _ _ hk, ?_⟩
  intro m k hk
  have hle := calculateSpace_of_mem _ _ _ hk
  have hk' : rwidth k ≤ calculateSpace (evalCmds c).2 (evalFlags c).2 := by
    omega
  refine ⟨helpRow_eq _ _ _ hk', ?_⟩
  rw [rwidth_append]
  have hsep : rwidth [(⟨.plain, 0, spaces
      (calculateSpace (evalCmds c).2 (evalFlags c).2 - rwidth k)⟩ : Seg)] =
      calculateSpace (evalCmds c).2 (evalFlags c).2 - rwidth k := by
    simp [rwidth, Seg.width, spaces_length]
  rw [hsep]
  omega

/-- Witness for C1 at a node with one subcommand and one flag: the flag
key fits with the gap, and its row renders with the value column at
`space`. -/
theorem alignment_invariant_witness :
    rwidth [(⟨.dash, 7, "--"⟩ : Seg), ⟨.flag, 0, "string1"⟩] + spaceBetween ≤
      calculateSpace (evalCmds cAligned).2 (evalFlags cAligned).2 ∧
    helpRow [] (calculateSpace (evalCmds cAligned).2 (evalFlags cAligned).2)
        [(⟨.dash, 7, "--"⟩ : Seg), ⟨.flag, 0, "string1"⟩] =
      some (Block.line ([(⟨.dash, 7, "--"⟩ : Seg), ⟨.flag, 0, "string1"⟩] ++
        (⟨.plain, 0, spaces (calculateSpace (evalCmds cAligned).2
            (evalFlags cAligned).2 -
          rwidth [(⟨.dash, 7, "--"⟩ : Seg), ⟨.flag, 0, "string1"⟩])⟩ : Seg) ::
        mapGet [] [(⟨.dash, 7, "--"⟩ : Seg), ⟨.flag, 0, "string1"⟩])) :=
  ⟨(alignment_invariant cAligned).2.1 _ (by decide),
   ((alignment_invariant cAligned).2.2 [] _ (by decide)).1⟩

/-- C9: RenderHelp is total: for every input command node, including
degenerate ones, the renderer produces output and never fails (the two
panic-capable operations, the `lines[1:]` slice and the negative-count
`strings.Repeat`, are always in range). -/
theorem helpFn_never_fails (c : Cmd) : (helpFn c).isSome = true := by
  have hex := exampleBlocks_eq c (rwidth (use c))
  have hcmd : ∀ k ∈ (evalCmds c).2,
      rwidth k ≤ calculateSpace (evalCmds c).2 (evalFlags c).2 := by
    intro k hk
    have := calculateSpace_of_mem (evalCmds c).2 (evalFlags c).2 k
      (List.mem_append_left _ hk)
    omega
  have hfl : ∀ k ∈ (evalFlags c).2,
      rwidth k ≤ calculateSpace (evalCmds c).2 (evalFlags c).2 := by
    intro k hk
    have := calculateSpace_of_mem (evalCmds c).2 (evalFlags c).2 k
      (List.mem_append_right _ hk)
    omega
  obtain ⟨cb, hcb⟩ := Option.isSome_iff_exists.mp
    (sectionBlocks_isSome "commands" (evalCmds c).1 (evalCmds c).2 _ hcmd)
  obtain ⟨fb, hfb⟩ := Option.isSome_iff_exists.mp
    (sectionBlocks_isSome "flags" (evalFlags c).1 (evalFlags c).2 _ hfl)
  simp [helpFn, hex, hcb, hfb]

/-- C10: helpFn joins `lines[1:]` of the per-line results of `usage`, so
the examples codeblock holds exactly the rendered lines after the first
one; at a node whose example text does not begin with a newline
(`cFirstLine`, first line content "run"), the dropped first line's content
appears nowhere in the rendered help output. -/
theorem examples_first_line_dropped :
    (∀ (c : Cmd) (m : Nat),
      exampleBlocks (usage c m) =
        some [Block.title "examples",
          Block.codeblock ((usage c m).drop 1)]) ∧
    (helpFn cFirstLine).map
        (fun bs => (goSplitOn (outText bs) "run").length) = some 1 :=
  ⟨fun c m => exampleBlocks_eq c m, by decide⟩

/-- C2: evaluating the example tokenizer at the claim's own input shows
that once a token opens a quoted span the span never closes (the closing
check is unreachable while the span is open): the `--flag` token between
the two quoted spans is rendered in quoted-string style, not flag style. -/
theorem quoted_span_never_closes :
    ((evalExample cQuoted
        "example sub \"multi-word quoted string\" --flag \"another quoted string\""
        true).map Seg.role =
      [.program, .argument, .quoted, .quoted, .quoted, .quoted, .quoted,
        .quoted, .quoted]) ∧
    Role.quoted ≠ Role.flag := by
  constructor
  · decide
  · decide

/-- C8: evaluating the renderer at a degenerate node (empty example,
empty flag set, empty children set): the commands and flags section
titles are absent as claimed, but the "examples" section title is still
emitted (with an empty codeblock), because `usage` always returns at
least one line and so the `len(lines) > 0` guard is always true. -/
theorem empty_node_render :
    helpFn cEmptyNode =
      some [Block.line [(⟨.program, 4, "simple"⟩ : Seg)],
        Block.title "examples", Block.codeblock [], Block.blank] ∧
    Block.title "examples" ∈
      [Block.line [(⟨.program, 4, "simple"⟩ : Seg)],
        Block.title "examples", Block.codeblock [], Block.blank] ∧
    Block.title "commands" ∉
      [Block.line [(⟨.program, 4, "simple"⟩ : Seg)],
        Block.title "examples", Block.codeblock [], Block.blank] ∧
    Block.title "flags" ∉
      [Block.line [(⟨.program, 4, "simple"⟩ : Seg)],
        Block.title "examples", Block.codeblock [], Block.blank] := by
  refine ⟨by decide, by decide, by decide, by decide⟩

/-- C3: a non-first token starting with a dash (with no pending flag
value and no open quoted span) is a flag reference: with `=` it renders
as one dash+name+equals+value unit and consumes nothing; without `=` it
renders as dash+name and the next token is marked as the flag's value
exactly when the flag is not boolean-typed; a marked next token renders
wholly in flag style.  In particular `example --name=Carlos -a -s Becker`
renders `Becker` as the value of `-s` in flag style. -/
theorem flag_token_classification :
    (∀ (c : Cmd) (st : ExState) (arg : String),
      st.nextIsFlag = false → st.isQuotedString = false →
      goHasPre arg "\"" = false → goHasSuf arg "\"" = false →
      goHasPre arg "-" = true →
      ((goCut arg "=").2.2 = true →
        evalToken c st arg =
          ([⟨.dash, 1, if goHasPre arg "--" then "--" else "-"⟩,
            ⟨.flag, 0, goTrimPre (goCut arg "=").1
              (if goHasPre arg "--" then "--" else "-")⟩,
            ⟨.comment, 0, "="⟩, ⟨.flag, 0, (goCut arg "=").2.1⟩], st)) ∧
      ((goCut arg "=").2.2 = false →
        evalToken c st arg =
          ([⟨.dash, 1, if goHasPre arg "--" then "--" else "-"⟩,
            ⟨.flag, 0, goTrimPre (goCut arg "=").1
              (if goHasPre arg "--" then "--" else "-")⟩],
            { st with nextIsFlag := !isFlagBool c (goTrimPre (goCut arg "=").1
                (if goHasPre arg "--" then "--" else "-")) }))) ∧
    (∀ (c : Cmd) (st : ExState) (arg : String), st.nextIsFlag = true →
      evalToken c st arg =
        ([⟨.flag, 1, arg⟩], { st with nextIsFlag := false })) ∧
    evalExample cFlags3 "example --name=Carlos -a -s Becker" true =
      [⟨.program, 1, "example"⟩,
        ⟨.dash, 1, "--"⟩, ⟨.flag, 0, "name"⟩, ⟨.comment, 0, "="⟩,
        ⟨.flag, 0, "Carlos"⟩,
        ⟨.dash, 1, "-"⟩, ⟨.flag, 0, "a"⟩,
        ⟨.dash, 1, "-"⟩, ⟨.flag, 0, "s"⟩,
        ⟨.flag, 1, "Becker"⟩] := by
  refine ⟨?_, ?_, by decide⟩
  · intro c st arg h1 h2 h3 h4 h5
    cases h6 : goHasPre arg "--" <;>
      refine ⟨fun h7 => ?_, fun h7 => ?_⟩ <;>
        simp [evalToken, h1, h2, h3, h4, h5, h6, h7]
  · intro c st arg h
    simp [evalToken, h]

/-- Witness for C3 at the token `-s` of `cFlags3`: no `=`, the flag is a
non-boolean string flag, so the next token is marked as its value. -/
theorem flag_token_classification_witness :
    evalToken cFlags3 ExState.init "-s" =
      ([⟨.dash, 1, "-"⟩, ⟨.flag, 0, "s"⟩], ⟨true, false⟩) :=
  (flag_token_classification.1 cFlags3 ExState.init "-s" (by decide) (by decide)
    (by decide) (by decide) (by decide)).2 (by decide)

/-- C4: the usage line is composed as styled cleaned name, then
`[command]` iff hasCommands, then `[args]` iff hasArgs, then the
preserved bracketed tokens, then `[--flags]` iff hasFlags: when hasFlags
holds the line ends with the flag-styled `[--flags]`; when it does not,
no flag-styled segment occurs at all; when hasCommands holds the token
right after the program name is `[command]`; the line always starts with
the program-styled cleaned name; and for Use "example [args]" with flags
and no subcommands the line is name, `[args]`, `[--flags]` with no
`[command]`. -/
theorem use_line_composition :
    (∀ c : Cmd, hasFlagsB c = true →
      (use c).getLast? = some ⟨.flag, 1, "[--flags]"⟩) ∧
    (∀ c : Cmd, hasFlagsB c = false → ∀ seg ∈ use c, seg.role ≠ .flag) ∧
    (∀ c : Cmd, hasCommandsB c = true →
      (use c)[1]? = some (⟨.argument, 1, "[command]"⟩ : Seg)) ∧
    (∀ c : Cmd, (use c)[0]? = some (⟨.program, 4, cleanUse c⟩ : Seg)) ∧
    use cUseArgs =
      [⟨.program, 4, "example"⟩, ⟨.argument, 1, "[args]"⟩,
        ⟨.flag, 1, "[--flags]"⟩] := by
  refine ⟨?_, ?_, ?_, ?_, by decide⟩
  · intro c h
    simp only [use, h, if_true]
    exact List.getLast?_concat _
  · intro c h seg hseg
    simp [use, h] at hseg
    rcases hseg with h1 | h1 | h1 | h1
    · simp [h1]
    · rw [h1.2]
      simp
    · rw [h1.2]
      simp
    · obtain ⟨a, -, h2⟩ := h1
      rw [← h2]
      simp
  · intro c h
    simp [use, h]
  · intro c
    simp [use]

/-- Witness for C4: at `cUseArgs` (which has flags) the line ends in the
flag placeholder, and at `cNoFlags` the program segment is flag-free. -/
theorem use_line_composition_witness :
    (use cUseArgs).getLast? = some ⟨.flag, 1, "[--flags]"⟩ ∧
    (⟨.program, 4, "plain"⟩ : Seg).role ≠ .flag :=
  ⟨use_line_composition.1 cUseArgs (by decide),
    use_line_composition.2.1 cNoFlags (by decide) ⟨.program, 4, "plain"⟩
      (by decide)⟩

/-- C5 counterexample: at example text "\nsimple run\n" the trailing
blank line is NOT dropped: usage returns three rows and the last one is a
column-width spacer, identical to the internal blank's row. -/
theorem trailing_blank_not_dropped :
    usage cTrailing 10 =
      [[(⟨.span, 0, spaces 11⟩ : Seg)],
        [⟨.program, 1, "simple"⟩, ⟨.argument, 1, "run"⟩],
        [(⟨.span, 0, spaces 11⟩ : Seg)]] ∧
    (usage cTrailing 10).length = 3 ∧
    (usage cTrailing 10).getLast? = some [(⟨.span, 0, spaces 11⟩ : Seg)] := by
  refine ⟨by decide, by decide, by decide⟩

/-- C5 amended: every blank line, trailing or internal, is rendered as
the empty string by evalExample; usage emits one row per split line
(trailing blanks are not dropped); after right-padding the trailing
blank's row equals the internal blank's column-width spacer row. -/
theorem blank_lines_uniform_spacers :
    (∀ (c : Cmd) (line : String) (last : Bool), goTrimSpace line = "" →
      evalExample c line last = []) ∧
    (∀ (c : Cmd) (m : Nat),
      (usage c m).length = (goSplitChar '\n' c.Example.toList).length) ∧
    (usage cTrailing 10)[0]? = (usage cTrailing 10)[2]? := by
  refine ⟨?_, fun c m => usage_length c m, by decide⟩
  intro c line last h
  cases last with
  | false => simp [evalExample, h]
  | true =>
    simp only [evalExample, h]
    rfl

/-- Witness for C5 amended, at a whitespace-only line. -/
theorem blank_lines_uniform_spacers_witness :
    evalExample cTrailing "  " false = [] :=
  blank_lines_uniform_spacers.1 cTrailing "  " false (by decide)

/-- C6 counterexample: for the message "boom." (already ending in a
period) the rendered message line is "Boom.." — the code appends a period
unconditionally, so a message already ending in a period gains an extra
one, contradicting the claim. -/
theorem error_message_double_period :
    (writeError "boom.")[1]? =
      some (Block.line [(⟨.errorDetails, 0, "Boom.."⟩ : Seg)]) ∧
    "Boom.." ≠ "Boom." := ⟨by decide, by decide⟩

/-- C6 amended: RenderError emits the fixed ERROR badge, then the message
with its first word capitalized and a period appended unconditionally
(one more period even if the message already ends in one), then the fixed
"Try --help for usage." hint line. -/
theorem writeError_structure :
    (∀ msg : String,
      (writeError msg)[0]? =
        some (Block.line [(⟨.errorHeader, 1, "ERROR"⟩ : Seg)]) ∧
      (writeError msg)[1]? =
        some (Block.line
          [(⟨.errorDetails, 0, titleFirstWord (msg ++ ".")⟩ : Seg)]) ∧
      (writeError msg)[3]? =
        some (Block.line [(⟨.errorDetails, 0, "Try"⟩ : Seg),
          ⟨.errorDetailsFlag, 1, "--help"⟩,
          ⟨.errorDetails, 1, "for usage."⟩])) ∧
    titleFirstWord ("boom" ++ ".") = "Boom." ∧
    titleFirstWord ("boom." ++ ".") = "Boom.." :=
  ⟨fun _ => ⟨rfl, rfl, rfl⟩, by decide, by decide⟩

/-- C7: a flag whose printed default is one of "", "false", "0", "[]"
renders with no parenthesized default suffix (its row value is only the
capitalized usage text, with no Default-styled segment); any other
non-empty default appends the suffix " (<default>)"; and each non-hidden
flag contributes exactly one row key to the flags section. -/
theorem flag_default_suffix :
    (∀ f : FlagSpec,
      (f.DefValue = "" ∨ f.DefValue = "false" ∨ f.DefValue = "0" ∨
        f.DefValue = "[]") →
      flagValue f = [(⟨.help, 0, titleFirstWord f.Usage⟩ : Seg)] ∧
      ∀ seg ∈ flagValue f, seg.role ≠ .defaultVal) ∧
    (∀ f : FlagSpec, f.DefValue ≠ "" → f.DefValue ≠ "false" →
      f.DefValue ≠ "0" → f.DefValue ≠ "[]" →
      flagValue f =
        [(⟨.help, 0, titleFirstWord f.Usage⟩ : Seg),
          ⟨.defaultVal, 1, "(" ++ f.DefValue ++ ")"⟩]) ∧
    (∀ c : Cmd, (evalFlags c).2 =
      (c.Flags.filter (fun f => !f.Hidden)).map flagKey) := by
  refine ⟨?_, ?_, ?_⟩
  · intro f h
    have hcond : (f.DefValue != "" && f.DefValue != "false" &&
        f.DefValue != "0" && f.DefValue != "[]") = false := by
      rcases h with h | h | h | h <;> simp [h]
    refine ⟨by simp [flagValue, hcond], ?_⟩
    intro seg hseg
    simp [flagValue, hcond] at hseg
    rw [hseg]
    simp
  · intro f h1 h2 h3 h4
    have hcond : (f.DefValue != "" && f.DefValue != "false" &&
        f.DefValue != "0" && f.DefValue != "[]") = true := by
      simp [bne_iff_ne, h1, h2, h3, h4]
    simp [flagValue, hcond]
  · intro c
    have h := evalFlags_keys_aux c.Flags ([], [])
    simpa [evalFlags] using h

/-- Witness for C7 at the flags of the repository's own test tree: the
"false"-default bool flag gets no suffix; the "default-value" string flag
gets the suffix. -/
theorem flag_default_suffix_witness :
    flagValue fBoolDef = [(⟨.help, 0, titleFirstWord fBoolDef.Usage⟩ : Seg)] ∧
    flagValue fStrDef =
      [(⟨.help, 0, titleFirstWord fStrDef.Usage⟩ : Seg),
        ⟨.defaultVal, 1, "(" ++ fStrDef.DefValue ++ ")"⟩] :=
  ⟨(flag_default_suffix.1 fBoolDef (Or.inr (Or.inl rfl))).1,
    flag_default_suffix.2.1 fStrDef (by decide) (by decide) (by decide)
      (by decide)⟩
